import Mathlib

/-!
Verification of the `ddns` dynamic-DNS updater (`src/main.rs`) against its
natural-language specification.

The whole program is a single `main` function; we embed it as a pure function
`run : Env → Outcome`.  The environment `Env` records everything the process
observes from outside: the `HOME` variable, the result of reading and parsing
the configuration file, and the behaviour of the five HTTP endpoints the
program may contact (the Cloudflare trace endpoint, ipify, icanhazip, and the
provider lookup/patch endpoints).  The outcome records the stdout and stderr
lines, the process exit code, and the ordered list of network requests issued.

Modelling conventions, documented once here:
* A Rust panic (`unwrap` / `expect`) is modelled as the expect message on
  stderr and exit code 101, the exit code of a panicking Rust process.
  `main` returning `Err(e)` is modelled as `"Error: " ++ e` on stderr and exit
  code 1, matching the Rust runtime.  Message texts are modelled up to the
  runtime's wrapping (panic location, `Debug` quoting).
* An HTTP interaction is `HttpRes`: `noConn` models `reqwest::get`/`send`
  returning `Err` (transport failure), `bodyErr` models a successful request
  whose `.text()` call fails, and `ok status body` models a delivered response
  of any status (the program never inspects the status, so fallback selection
  cannot depend on it).  The strings carried by `noConn`/`bodyErr` model the
  `Display`/`Debug` text of the underlying reqwest error.
* `serde_json::from_str` on the lookup/patch bodies is modelled by the
  environment fields `lookupJson`/`patchJson : Except String Json`, the parse
  result of the corresponding `ok` body.
* Reading `$HOME/.config/ddns/config.json` and deserialising it into `Config`
  is modelled by `configRead : Option (Option Config)`: `none` is a read
  failure, `some none` a serde failure, `some (some c)` success.
-/

/-- Model of Rust `char::is_whitespace` (Unicode `White_Space`). -/
def rustIsWs (c : Char) : Bool :=
  let v := c.toNat
  (9 ≤ v && v ≤ 13) || v == 32 || v == 0x85 || v == 0xA0 || v == 0x1680 ||
  (0x2000 ≤ v && v ≤ 0x200A) || v == 0x2028 || v == 0x2029 ||
  v == 0x202F || v == 0x205F || v == 0x3000

/-- Model of Rust `str::trim` on a character list. -/
def trimChars (cs : List Char) : List Char :=
  ((cs.dropWhile rustIsWs).reverse.dropWhile rustIsWs).reverse

/-- Model of Rust `str::trim` producing a `String`. -/
def rustTrim (s : String) : String := String.mk (trimChars s.data)

/-- Split a character list at every occurrence of `sep` (separator dropped);
always returns at least one (possibly empty) piece. -/
def splitOnChar (sep : Char) : List Char → List (List Char)
  | [] => [[]]
  | c :: rest =>
    if c == sep then [] :: splitOnChar sep rest
    else
      match splitOnChar sep rest with
      | s :: ss => (c :: s) :: ss
      | [] => [[c]]

/-- Drop a single trailing carriage return, as Rust `str::lines` does for
lines that were terminated by `\r\n`. -/
def stripCR (l : List Char) : List Char :=
  match l.getLast? with
  | some '\r' => l.dropLast
  | _ => l

/-- Post-process the `\n`-split pieces the way Rust `str::lines` does: each
piece except the last was followed by `\n` and loses a trailing `\r`; a final
empty piece (from a terminating `\n`) is dropped. -/
def linesCore : List (List Char) → List (List Char)
  | [] => []
  | [last] => if last.isEmpty then [] else [last]
  | p :: ps => stripCR p :: linesCore ps

/-- Model of Rust `str::lines`. -/
def rustLines (s : String) : List String :=
  (linesCore (splitOnChar '\n' s.data)).map String.mk

/-- Model of `line.starts_with("ip=")`. -/
def startsWithIpEq (s : String) : Bool :=
  match s.data with
  | 'i' :: 'p' :: '=' :: _ => true
  | _ => false

/-- Does `pat` occur at the head of `l`? -/
def leadMatches : List Char → List Char → Bool
  | [], _ => true
  | _ :: _, [] => false
  | a :: as, b :: bs => a == b && leadMatches as bs

/-- Model of Rust `str::contains` for a literal pattern: `pat` occurs as a
contiguous substring of `l`. -/
def containsSub (pat : List Char) : List Char → Bool
  | [] => leadMatches pat []
  | c :: rest => leadMatches pat (c :: rest) || containsSub pat rest

/-- Substring test on strings (models `record.contains(pat)`). -/
def strContains (s pat : String) : Bool := containsSub pat.data s.data

/-- Decimal digit, `[0-9]`. -/
def digitB (c : Char) : Bool := 48 ≤ c.toNat && c.toNat ≤ 57

/-- Character class `[01]`. -/
def zeroOneB (c : Char) : Bool := c == '0' || c == '1'

/-- Character class `[0-4]`. -/
def zeroFourB (c : Char) : Bool := 48 ≤ c.toNat && c.toNat ≤ 52

/-- Character class `[0-5]`. -/
def zeroFiveB (c : Char) : Bool := 48 ≤ c.toNat && c.toNat ≤ 53

/-- The octet piece of `IPV4_REGEX`, transcribed alternative by alternative:
`([01]?[0-9]?[0-9]|2[0-4][0-9]|25[0-5])`.  A one-character match is `[0-9]`;
a two-character match is `[01][0-9]` (first optional present, second absent)
or `[0-9][0-9]`; a three-character match is `[01][0-9][0-9]`, `2[0-4][0-9]`
or `25[0-5]`. -/
def isOctet : List Char → Bool
  | [a] => digitB a
  | [a, b] => (zeroOneB a && digitB b) || (digitB a && digitB b)
  | [a, b, c] =>
      (zeroOneB a && digitB b && digitB c) ||
      (a == '2' && zeroFourB b && digitB c) ||
      (a == '2' && b == '5' && zeroFiveB c)
  | _ => false

/-- The language of `IPV4_REGEX` (four octets joined by literal dots); the
anchored regex `^…$` accepts exactly this language. -/
def ipv4Lang (cs : List Char) : Prop :=
  ∃ o1 o2 o3 o4, isOctet o1 = true ∧ isOctet o2 = true ∧ isOctet o3 = true ∧
    isOctet o4 = true ∧ cs = o1 ++ '.' :: (o2 ++ '.' :: (o3 ++ '.' :: o4))

/-- Executable membership test for `ipv4Lang`: split at dots and check the
four pieces (octets contain no dot, so this is exact; see
`ipv4Check_iff_lang`). -/
def ipv4Check (cs : List Char) : Bool :=
  match splitOnChar '.' cs with
  | [a, b, c, d] => isOctet a && isOctet b && isOctet c && isOctet d
  | _ => false

/-- Model of the validator `Regex::new(&format!("^{}$", IPV4_REGEX))?.is_match(&ip)`
at `src/main.rs:83`. -/
def validIPv4 (s : String) : Bool := ipv4Check s.data

/-- All ways the octet piece of `IPV4_REGEX` can match at the head of `cs`,
as `(consumed, rest)` pairs in the backtracking preference order of the
regex engine (alternatives left to right, `?` greedy). -/
def octetSplits : List Char → List (List Char × List Char)
  | a :: b :: c :: r =>
      (if zeroOneB a && digitB b && digitB c then [([a, b, c], r)] else []) ++
      (if zeroOneB a && digitB b then [([a, b], c :: r)] else []) ++
      (if digitB a && digitB b then [([a, b], c :: r)] else []) ++
      (if digitB a then [([a], b :: c :: r)] else []) ++
      (if a == '2' && zeroFourB b && digitB c then [([a, b, c], r)] else []) ++
      (if a == '2' && b == '5' && zeroFiveB c then [([a, b, c], r)] else [])
  | [a, b] =>
      (if zeroOneB a && digitB b then [([a, b], [])] else []) ++
      (if digitB a && digitB b then [([a, b], [])] else []) ++
      (if digitB a then [([a], [b])] else [])
  | [a] => if digitB a then [([a], [])] else []
  | [] => []

/-- First `some` produced by `f` along the list. -/
def firstSome {α β : Type} (f : α → Option β) : List α → Option β
  | [] => none
  | a :: as =>
    match f a with
    | some b => some b
    | none => firstSome f as

/-- The preferred match of `IPV4_REGEX` starting exactly at the head of `cs`
(if any): four octets separated by dots, backtracking in preference order. -/
def ipMatchAt (cs : List Char) : Option (List Char) :=
  firstSome (fun p1 =>
    match p1.2 with
    | c1 :: r1 =>
      if c1 = '.' then
        firstSome (fun p2 =>
          match p2.2 with
          | c2 :: r2 =>
            if c2 = '.' then
              firstSome (fun p3 =>
                match p3.2 with
                | c3 :: r3 =>
                  if c3 = '.' then
                    firstSome (fun p4 =>
                      some (p1.1 ++ '.' :: (p2.1 ++ '.' :: (p3.1 ++ '.' :: p4.1))))
                      (octetSplits r3)
                  else none
                | [] => none) (octetSplits r2)
            else none
          | [] => none) (octetSplits r1)
      else none
    | [] => none) (octetSplits cs)

/-- Model of `re.captures(line)` followed by `.get(0)` for `IPV4_REGEX`
(`src/main.rs:54-59`): the leftmost match of the pattern in the line.  Scans
start positions left to right. -/
def findIpMatch : List Char → Option (List Char)
  | [] => none
  | c :: rest =>
    match ipMatchAt (c :: rest) with
    | some m => some m
    | none => findIpMatch rest

/-- Join pieces with a separator character (left inverse of `splitOnChar`). -/
def joinSep (sep : Char) : List (List Char) → List Char
  | [] => []
  | [x] => x
  | x :: y :: ys => x ++ sep :: joinSep sep (y :: ys)

/-- Character class `[1-9]`. -/
def oneNineB (c : Char) : Bool := 49 ≤ c.toNat && c.toNat ≤ 57

/-- Modelled from the spec: the octet grammar of §4.3,
`octet := [0-9] | [1-9][0-9] | 1[0-9][0-9] | 2[0-4][0-9] | 25[0-5]`.  This is
the grammar the claim asserts, written from the spec's words; it is compared
against the code's `isOctet`. -/
def specOctet : List Char → Bool
  | [a] => digitB a
  | [a, b] => oneNineB a && digitB b
  | [a, b, c] =>
      (a == '1' && digitB b && digitB c) ||
      (a == '2' && zeroFourB b && digitB c) ||
      (a == '2' && b == '5' && zeroFiveB c)
  | _ => false

/-- Modelled from the spec: `ipv4 := octet "." octet "." octet "." octet`,
anchored, with `specOctet` as the octet grammar. -/
def specIPv4 (s : String) : Bool :=
  match splitOnChar '.' s.data with
  | [a, b, c, d] => specOctet a && specOctet b && specOctet c && specOctet d
  | _ => false

/-- Does any contiguous substring of `cs` belong to the `IPV4_REGEX`
language?  (Executable form of "the line contains a match".) -/
def hasIpv4Sub (cs : List Char) : Bool :=
  cs.tails.any (fun t => t.inits.any ipv4Check)

/-- The configuration document (`struct Config` in `src/main.rs`).  `ttl` is a
`u32` in the source; no arithmetic is ever performed on it. -/
structure Config where
  auth_email : String
  auth_method : String
  auth_key : String
  zone_identifier : String
  record_name : String
  ttl : Nat
  proxy : Bool
deriving DecidableEq

/-- The PATCH body (`struct Payload`); `rtype` models the `r#type` field. -/
structure Payload where
  rtype : String
  name : String
  content : String
  ttl : Nat
  proxied : Bool
deriving DecidableEq

/-- Outcome of one HTTP interaction, as observed by the program. -/
inductive HttpRes where
  | noConn (errMsg : String)
  | bodyErr (errMsg : String)
  | ok (status : Nat) (body : String)
deriving DecidableEq

/-- A JSON value (model of `serde_json::Value`; numbers as integers, which is
all these claims need). -/
inductive Json where
  | null
  | bool (b : Bool)
  | num (n : Int)
  | str (s : String)
  | arr (elems : List Json)
  | obj (fields : List (String × Json))

/-- Model of `Value` string-indexing: member of an object, `Null` otherwise. -/
def Json.get (j : Json) (k : String) : Json :=
  match j with
  | .obj fs =>
    match fs.find? (fun p => p.1 == k) with
    | some p => p.2
    | none => .null
  | _ => .null

/-- Model of `Value` integer-indexing: array element, `Null` otherwise. -/
def Json.idx (j : Json) (i : Nat) : Json :=
  match j with
  | .arr xs => xs.getD i .null
  | _ => .null

/-- Model of `Value::as_str`. -/
def Json.asStr : Json → Option String
  | .str s => some s
  | _ => none

/-- Model of `Value::as_bool`. -/
def Json.asBool : Json → Option Bool
  | .bool b => some b
  | _ => none

mutual

/-- Rendering of a JSON value, modelling the `{:#?}` debug formatting of
`serde_json::Value` used at `src/main.rs:191` (up to whitespace). -/
def renderJson : Json → String
  | .null => "Null"
  | .bool b => "Bool(" ++ (if b then "true" else "false") ++ ")"
  | .num n => "Number(" ++ toString n ++ ")"
  | .str s => "String(\"" ++ s ++ "\")"
  | .arr xs => "Array [" ++ renderElems xs ++ "]"
  | .obj fs => "Object \x7b" ++ renderFields fs ++ "\x7d"

/-- Comma-separated rendering of array elements. -/
def renderElems : List Json → String
  | [] => ""
  | [x] => renderJson x
  | x :: y :: xs => renderJson x ++ ", " ++ renderElems (y :: xs)

/-- Comma-separated rendering of object fields. -/
def renderFields : List (String × Json) → String
  | [] => ""
  | [(k, v)] => "\"" ++ k ++ "\": " ++ renderJson v
  | (k, v) :: f :: fs => "\"" ++ k ++ "\": " ++ renderJson v ++ ", " ++ renderFields (f :: fs)

end

/-- A network request issued by the program, in issue order.  Provider
requests record the headers actually sent. -/
inductive Request where
  | getTrace
  | getIpify
  | getIcanhazip
  | lookup (headers : List (String × String)) (url : String)
  | patch (headers : List (String × String)) (url : String) (payload : Payload)
deriving DecidableEq

/-- Is this a PATCH request to the provider? -/
def Request.isPatchReq : Request → Bool
  | .patch _ _ _ => true
  | _ => false

/-- Is this a provider request (lookup or patch)? -/
def Request.isProviderReq : Request → Bool
  | .lookup _ _ => true
  | .patch _ _ _ => true
  | _ => false

/-- Observable outcome of one invocation. -/
structure Outcome where
  stdout : List String
  stderr : List String
  exitCode : Nat
  requests : List Request
deriving DecidableEq

/-- Everything the process observes from its environment (see the header
comment for the conventions). -/
structure Env where
  home : Option String
  configRead : Option (Option Config)
  trace : HttpRes
  ipify : HttpRes
  icanhazip : HttpRes
  lookupRes : HttpRes
  lookupJson : Except String Json
  patchRes : HttpRes
  patchJson : Except String Json

/-- The ipify → icanhazip fallback (`src/main.rs:64-67` and `74-77`): contact
ipify; on transport failure contact icanhazip; trim the body that arrives.
Returns the requests issued and either the candidate IP or the error that
`?` propagates out of `main`. -/
def fallbackChain (ipi ica : HttpRes) : List Request × Except String String :=
  match ipi with
  | .ok _ body => ([.getIpify], .ok (rustTrim body))
  | .bodyErr m => ([.getIpify], .error m)
  | .noConn _ =>
    match ica with
    | .ok _ body => ([.getIpify, .getIcanhazip], .ok (rustTrim body))
    | .bodyErr m => ([.getIpify, .getIcanhazip], .error m)
    | .noConn m => ([.getIpify, .getIcanhazip], .error m)

/-- IP discovery (`src/main.rs:49-80`): contact the Cloudflare trace
endpoint; on transport failure or when no line starts with `ip=`, run the
fallback chain; otherwise extract the first `IPV4_REGEX` match from the first
`ip=` line, failing the whole run if there is none. -/
def discover (tr ipi ica : HttpRes) : List Request × Except String String :=
  match tr with
  | .noConn _ =>
    let p := fallbackChain ipi ica
    (.getTrace :: p.1, p.2)
  | .bodyErr m => ([.getTrace], .error m)
  | .ok _ body =>
    match (rustLines body).find? startsWithIpEq with
    | some line =>
      match findIpMatch line.data with
      | some m => ([.getTrace], .ok (String.mk m))
      | none => ([.getTrace], .error "failed to extract IP from Cloudflare response")
    | none =>
      let p := fallbackChain ipi ica
      (.getTrace :: p.1, p.2)

/-- Model of `HeaderValue::from_str` succeeding: every UTF-8 byte of the
string is a tab or is ≥ 32 and ≠ 127.  Non-ASCII characters encode to bytes
≥ 128 and are accepted, so the test is per character. -/
def headerValueOk (s : String) : Bool :=
  s.data.all (fun c => c.toNat == 9 || (32 ≤ c.toNat && c.toNat ≠ 127) || 128 ≤ c.toNat)

/-- Does building the credential header for this config succeed (no panic)?
`global` encodes `auth_key`, `token` encodes `"Bearer " ++ auth_key`; any
other method builds no credential header. -/
def credHeaderOk (cfg : Config) : Bool :=
  if cfg.auth_method = "global" then headerValueOk cfg.auth_key
  else if cfg.auth_method = "token" then headerValueOk ("Bearer " ++ cfg.auth_key)
  else true

/-- The header map sent on provider requests (`src/main.rs:91-119`), in
insertion order: `X-Auth-Email`, the credential selected by `auth_method`,
`Content-Type`. -/
def mkHeaders (cfg : Config) : List (String × String) :=
  [("X-Auth-Email", cfg.auth_email)] ++
  (if cfg.auth_method = "global" then [("X-Auth-Key", cfg.auth_key)]
   else if cfg.auth_method = "token" then [("Authorization", "Bearer " ++ cfg.auth_key)]
   else []) ++
  [("Content-Type", "application/json")]

/-- First line of the bad-`auth_method` diagnostic (`src/main.rs:111`). -/
def authDiag1 : String :=
  "The authentication method should either be global or token.\nExpected: \n....\n\"auth_method\": \"global\" or \"token\",\n...."

/-- Second line of the bad-`auth_method` diagnostic (`src/main.rs:112-115`). -/
def authDiag2 (method : String) : String :=
  "\nFound: \n....\n\"auth_method\": " ++ method ++ ",\n...."

/-- Lookup URL (`src/main.rs:123-126`). -/
def lookupUrl (zone name : String) : String :=
  "https://api.cloudflare.com/client/v4/zones/" ++ zone ++ "/dns_records?type=A&name=" ++ name

/-- Patch URL (`src/main.rs:174-177`). -/
def patchUrl (zone rid : String) : String :=
  "https://api.cloudflare.com/client/v4/zones/" ++ zone ++ "/dns_records/" ++ rid

/-- The unchanged-IP message (`src/main.rs:149-152`). -/
def unchangedMsg (ip name : String) : String :=
  "ddns updater: IP (" ++ ip ++ ") for " ++ name ++ " has not changed."

/-- The missing-record message (`src/main.rs:136-139`). -/
def missingMsg (ip name : String) : String :=
  "ddns updater: Record does not exist, perhaps create one first? (" ++ ip ++ " for " ++ name ++ ")"

/-- The PATCH request and response handling (`src/main.rs:163-195`). -/
def patchPhase (hs : List (String × String)) (zone name : String) (ttl : Nat)
    (proxy : Bool) (ip rid : String) (reqs : List Request)
    (pt : HttpRes) (ptJson : Except String Json) : Outcome :=
  let payload : Payload := ⟨"A", name, ip, ttl, proxy⟩
  let reqs := reqs ++ [.patch hs (patchUrl zone rid) payload]
  match pt with
  | .noConn m => ⟨[], ["Failed to read response body: " ++ m], 101, reqs⟩
  | .bodyErr m => ⟨[], ["Error: " ++ m], 1, reqs⟩
  | .ok _ _ =>
    match ptJson with
    | .error m => ⟨[], ["Error: " ++ m], 1, reqs⟩
    | .ok j =>
      if (j.get "success").asBool.getD false then ⟨["DNS updated."], [], 0, reqs⟩
      else ⟨[], ["Error: HTTP response: \n" ++ renderJson j], 0, reqs⟩

/-- The lookup request and everything after it (`src/main.rs:122-195`):
missing-record check on the raw body, JSON parse, no-op branch, record-id
extraction, then the patch phase. -/
def lookupPhase (hs : List (String × String)) (zone name : String) (ttl : Nat)
    (proxy : Bool) (ip : String) (reqs : List Request)
    (lk : HttpRes) (lkJson : Except String Json)
    (pt : HttpRes) (ptJson : Except String Json) : Outcome :=
  let reqs := reqs ++ [.lookup hs (lookupUrl zone name)]
  match lk with
  | .noConn m => ⟨[], ["Failed to send request: " ++ m], 101, reqs⟩
  | .bodyErr m => ⟨[], ["Failed to read response body: " ++ m], 101, reqs⟩
  | .ok _ record =>
    if strContains record "\"count\":0" then
      ⟨[], [missingMsg ip name], 1, reqs⟩
    else
      match lkJson with
      | .error m => ⟨[], ["Error: " ++ m], 1, reqs⟩
      | .ok j =>
        if (((j.get "result").idx 0).get "content").asStr = some ip then
          ⟨[unchangedMsg ip name], [], 0, reqs⟩
        else
          match (((j.get "result").idx 0).get "id").asStr with
          | some rid => patchPhase hs zone name ttl proxy ip rid reqs pt ptJson
          | none => ⟨[], ["Error: Error: could not extract content from JSON response"], 1, reqs⟩

/-- Header construction (`src/main.rs:91-119`): encode `X-Auth-Email` (panic
on failure), then select the credential header by `auth_method` — an unknown
method prints the expected/found diagnostic to stdout and exits 1 — then
proceed to the lookup. -/
def headerPhase (cfg : Config) (ip : String) (reqs : List Request)
    (lk : HttpRes) (lkJson : Except String Json)
    (pt : HttpRes) (ptJson : Except String Json) : Outcome :=
  if ¬ headerValueOk cfg.auth_email then ⟨[], ["Invalid email address"], 101, reqs⟩
  else if cfg.auth_method = "global" then
    if ¬ headerValueOk cfg.auth_key then ⟨[], ["Invalid auth key"], 101, reqs⟩
    else lookupPhase (mkHeaders cfg) cfg.zone_identifier cfg.record_name cfg.ttl cfg.proxy
      ip reqs lk lkJson pt ptJson
  else if cfg.auth_method = "token" then
    if ¬ headerValueOk ("Bearer " ++ cfg.auth_key) then ⟨[], ["Invalid auth key"], 101, reqs⟩
    else lookupPhase (mkHeaders cfg) cfg.zone_identifier cfg.record_name cfg.ttl cfg.proxy
      ip reqs lk lkJson pt ptJson
  else ⟨[authDiag1, authDiag2 cfg.auth_method], [], 1, reqs⟩

/-- The whole program (`fn main`): config loading, IP discovery, validation,
header construction, lookup, reconciliation, patch. -/
def run (e : Env) : Outcome :=
  match e.home with
  | none => ⟨[], ["called `Result::unwrap()` on an `Err` value: NotPresent"], 101, []⟩
  | some home =>
    match e.configRead with
    | none => ⟨[], ["Could not read the config file.\nconfig: " ++ home ++ "/.config/ddns/config.json"], 101, []⟩
    | some none => ⟨[], ["Invalid config file.\nconfig: " ++ home ++ "/.config/ddns/config.json"], 101, []⟩
    | some (some cfg) =>
      let d := discover e.trace e.ipify e.icanhazip
      match d.2 with
      | .error m => ⟨[], ["Error: " ++ m], 1, d.1⟩
      | .ok ip =>
        if ¬ validIPv4 ip then ⟨[], ["ddns updater: Failed to find a valid IP."], 2, d.1⟩
        else headerPhase cfg ip d.1 e.lookupRes e.lookupJson e.patchRes e.patchJson


/-! ### Concrete fixtures used by the witness and counterexample theorems -/

/-- A well-formed configuration using token authentication. -/
def cfgToken : Config :=
  ⟨"user@example.com", "token", "SECRETKEY", "Z1", "home.example.com", 120, false⟩

/-- A configuration whose `auth_method` is the unsupported `"basic"`, with
`auth_key` equal to the method string. -/
def cfgBasic : Config :=
  ⟨"user@example.com", "basic", "basic", "Z1", "home.example.com", 120, false⟩

/-- A lookup body for an existing record `R1` holding `1.2.3.4`. -/
def lkBody1 : String :=
  "\x7b\"count\":1,\"result\":[\x7b\"id\":\"R1\",\"content\":\"1.2.3.4\"\x7d]\x7d"

/-- The parse of `lkBody1`. -/
def lkJson1 : Json :=
  .obj [("count", .num 1), ("result", .arr [.obj [("id", .str "R1"), ("content", .str "1.2.3.4")]])]

/-- A lookup body whose `result[0]` has `content` but no `id`. -/
def lkBodyNoId : String := "\x7b\"result\":[\x7b\"content\":\"1.2.3.4\"\x7d]\x7d"

/-- The parse of `lkBodyNoId`. -/
def lkJsonNoId : Json := .obj [("result", .arr [.obj [("content", .str "1.2.3.4")]])]

/-- A patch response reporting success. -/
def ptJsonTrue : Json := .obj [("success", .bool true)]

/-- A patch response reporting failure. -/
def ptJsonFalse : Json := .obj [("success", .bool false), ("errors", .arr [.str "denied"])]

/-! ### Helper lemmas: splitting at separators -/

theorem splitOnChar_ne_nil (sep : Char) (cs : List Char) : splitOnChar sep cs ≠ [] := by
  induction cs with
  | nil => simp [splitOnChar]
  | cons c rest ih =>
    simp only [splitOnChar]
    split
    · simp
    · split
      · simp
      · simp

theorem joinSep_splitOnChar (sep : Char) (cs : List Char) :
    joinSep sep (splitOnChar sep cs) = cs := by
  induction cs with
  | nil => rfl
  | cons c rest ih =>
    simp only [splitOnChar]
    by_cases hc : c == sep
    · simp only [hc, if_pos]
      obtain ⟨y, ys, hys⟩ := List.exists_cons_of_ne_nil (splitOnChar_ne_nil sep rest)
      rw [hys]
      rw [hys] at ih
      have hce : c = sep := eq_of_beq hc
      simpa [joinSep, hce] using ih
    · simp only [hc, if_neg, Bool.false_eq_true, not_false_iff]
      obtain ⟨y, ys, hys⟩ := List.exists_cons_of_ne_nil (splitOnChar_ne_nil sep rest)
      rw [hys]
      rw [hys] at ih
      cases ys with
      | nil => simpa [joinSep] using ih
      | cons z zs => simpa [joinSep] using ih

theorem splitOnChar_no_sep {sep : Char} {o : List Char} (h : sep ∉ o) :
    splitOnChar sep o = [o] := by
  induction o with
  | nil => rfl
  | cons c rest ih =>
    have hc : ¬ (c == sep) = true := by
      simp only [beq_iff_eq]
      intro hce
      exact h (hce ▸ List.mem_cons_self c rest)
    have hrest : sep ∉ rest := fun hm => h (List.mem_cons_of_mem c hm)
    simp only [splitOnChar]
    rw [if_neg hc, ih hrest]

theorem splitOnChar_append {sep : Char} {o : List Char} (rest : List Char) (h : sep ∉ o) :
    splitOnChar sep (o ++ sep :: rest) = o :: splitOnChar sep rest := by
  induction o with
  | nil => simp [splitOnChar]
  | cons c o' ih =>
    have hc : ¬ (c == sep) = true := by
      simp only [beq_iff_eq]
      intro hce
      exact h (hce ▸ List.mem_cons_self c o')
    have ho' : sep ∉ o' := fun hm => h (List.mem_cons_of_mem c hm)
    simp only [List.cons_append, splitOnChar]
    rw [if_neg hc]
    simp only [List.append_eq]
    rw [ih ho']

/-! ### Helper lemmas: the octet and IPv4 grammars -/

theorem zeroOneB_digit {c : Char} (h : zeroOneB c = true) : digitB c = true := by
  simp only [zeroOneB, Bool.or_eq_true, beq_iff_eq] at h
  rcases h with h | h <;> subst h <;> rfl

theorem isOctet_all_digits {o : List Char} (h : isOctet o = true) :
    ∀ c ∈ o, digitB c = true := by
  match o with
  | [a] =>
    intro c hc
    simp only [List.mem_singleton] at hc
    rw [hc]
    simpa [isOctet] using h
  | [a, b] =>
    intro c hc
    simp only [isOctet, Bool.or_eq_true, Bool.and_eq_true] at h
    simp only [List.mem_cons, List.mem_singleton, List.not_mem_nil, or_false] at hc
    rcases hc with hc | hc <;> rw [hc]
    · rcases h with ⟨h1, _⟩ | ⟨h1, _⟩
      · exact zeroOneB_digit h1
      · exact h1
    · rcases h with ⟨_, h2⟩ | ⟨_, h2⟩ <;> exact h2
  | [a, b, c'] =>
    intro c hc
    simp only [isOctet, Bool.or_eq_true, Bool.and_eq_true, beq_iff_eq,
      decide_eq_true_eq] at h
    simp only [List.mem_cons, List.not_mem_nil, or_false] at hc
    rcases hc with hc | hc | hc <;> rw [hc]
    · rcases h with (⟨⟨h1, _⟩, _⟩ | ⟨⟨h1, _⟩, _⟩) | ⟨⟨h1, _⟩, _⟩
      · exact zeroOneB_digit h1
      · rw [h1]; rfl
      · rw [h1]; rfl
    · rcases h with (⟨⟨_, h2⟩, _⟩ | ⟨⟨_, h2⟩, _⟩) | ⟨⟨_, h2⟩, _⟩
      · exact h2
      · simp only [zeroFourB, Bool.and_eq_true, decide_eq_true_eq] at h2
        simp only [digitB, Bool.and_eq_true, decide_eq_true_eq]
        omega
      · rw [h2]; rfl
    · rcases h with (⟨_, h3⟩ | ⟨_, h3⟩) | ⟨_, h3⟩
      · exact h3
      · exact h3
      · simp only [zeroFiveB, Bool.and_eq_true, decide_eq_true_eq] at h3
        simp only [digitB, Bool.and_eq_true, decide_eq_true_eq]
        omega
  | [] => intro c hc; simp [isOctet] at h
  | _ :: _ :: _ :: _ :: _ => intro c hc; simp [isOctet] at h

theorem isOctet_no_dot {o : List Char} (h : isOctet o = true) : '.' ∉ o := by
  intro hm
  have := isOctet_all_digits h '.' hm
  simp [digitB] at this

theorem ipv4Check_iff_lang (cs : List Char) : ipv4Check cs = true ↔ ipv4Lang cs := by
  constructor
  · intro h
    unfold ipv4Check at h
    have hjoin := joinSep_splitOnChar '.' cs
    rcases hps : splitOnChar '.' cs with _ | ⟨a, _ | ⟨b, _ | ⟨c, _ | ⟨d, _ | ⟨e, tl⟩⟩⟩⟩⟩ <;>
      rw [hps] at h hjoin
    · simp at h
    · simp at h
    · simp at h
    · simp at h
    · simp only [Bool.and_eq_true] at h
      obtain ⟨⟨⟨h1, h2⟩, h3⟩, h4⟩ := h
      refine ⟨a, b, c, d, h1, h2, h3, h4, ?_⟩
      simpa [joinSep] using hjoin.symm
    · simp at h
  · rintro ⟨o1, o2, o3, o4, h1, h2, h3, h4, rfl⟩
    unfold ipv4Check
    rw [splitOnChar_append _ (isOctet_no_dot h1),
        splitOnChar_append _ (isOctet_no_dot h2),
        splitOnChar_append _ (isOctet_no_dot h3),
        splitOnChar_no_sep (isOctet_no_dot h4)]
    simp [h1, h2, h3, h4]

/-! ### Helper lemmas: the leftmost-match scanner -/

theorem firstSome_some {α β : Type} {f : α → Option β} {l : List α} {b : β}
    (h : firstSome f l = some b) : ∃ a, a ∈ l ∧ f a = some b := by
  induction l with
  | nil => simp [firstSome] at h
  | cons a as ih =>
    simp only [firstSome] at h
    cases hf : f a with
    | some b' =>
      rw [hf] at h
      exact ⟨a, List.mem_cons_self a as, by rw [hf]; exact h⟩
    | none =>
      rw [hf] at h
      obtain ⟨x, hx, hfx⟩ := ih h
      exact ⟨x, List.mem_cons_of_mem a hx, hfx⟩

theorem mem_iteSingleton_append {α : Type} {q : Prop} [Decidable q] {x y : α} {l : List α}
    (h : y ∈ (if q then [x] else []) ++ l) : (q ∧ y = x) ∨ y ∈ l := by
  by_cases hq : q <;> simp [hq] at h ⊢ <;> tauto

theorem octetSplits_sound {cs : List Char} {p : List Char × List Char}
    (h : p ∈ octetSplits cs) : cs = p.1 ++ p.2 ∧ isOctet p.1 = true := by
  obtain ⟨o, r⟩ := p
  rcases cs with _ | ⟨a, _ | ⟨b, _ | ⟨c, rest⟩⟩⟩ <;>
    simp only [octetSplits, List.append_assoc, List.mem_append, List.mem_ite_nil_right,
      List.mem_singleton, Prod.mk.injEq, List.not_mem_nil, or_false, false_or] at h
  · obtain ⟨hq, ho, hr⟩ := h
    subst ho; subst hr
    exact ⟨rfl, by simp [isOctet, hq]⟩
  · rcases h with ⟨hq, ho, hr⟩ | ⟨hq, ho, hr⟩ | ⟨hq, ho, hr⟩ <;> subst ho <;> subst hr
    · exact ⟨rfl, by simp [isOctet, hq]⟩
    · exact ⟨rfl, by simp [isOctet, hq]⟩
    · exact ⟨rfl, by simp [isOctet, hq]⟩
  · rcases h with ⟨hq, ho, hr⟩ | ⟨hq, ho, hr⟩ | ⟨hq, ho, hr⟩ | ⟨hq, ho, hr⟩ |
      ⟨hq, ho, hr⟩ | ⟨hq, ho, hr⟩ <;> subst ho <;> subst hr
    · exact ⟨rfl, by simp [isOctet, hq]⟩
    · exact ⟨rfl, by simp [isOctet, hq]⟩
    · exact ⟨rfl, by simp [isOctet, hq]⟩
    · exact ⟨rfl, by simp [isOctet, hq]⟩
    · exact ⟨rfl, by simp [isOctet, hq]⟩
    · exact ⟨rfl, by simp [isOctet, hq]⟩

theorem ipMatchAt_sound {cs m : List Char} (h : ipMatchAt cs = some m) :
    (∃ r, cs = m ++ r) ∧ ipv4Lang m := by
  unfold ipMatchAt at h
  obtain ⟨p1, hp1, h1⟩ := firstSome_some h
  obtain ⟨hcs1, ho1⟩ := octetSplits_sound hp1
  rcases hr1 : p1.2 with _ | ⟨c1, r1⟩
  · rw [hr1] at h1; simp at h1
  rw [hr1] at h1
  simp only [] at h1
  by_cases hc1 : c1 = '.'
  swap
  · rw [if_neg hc1] at h1; simp at h1
  rw [if_pos hc1] at h1
  obtain ⟨p2, hp2, h2⟩ := firstSome_some h1
  obtain ⟨hcs2, ho2⟩ := octetSplits_sound hp2
  rcases hr2 : p2.2 with _ | ⟨c2, r2⟩
  · rw [hr2] at h2; simp at h2
  rw [hr2] at h2
  simp only [] at h2
  by_cases hc2 : c2 = '.'
  swap
  · rw [if_neg hc2] at h2; simp at h2
  rw [if_pos hc2] at h2
  obtain ⟨p3, hp3, h3⟩ := firstSome_some h2
  obtain ⟨hcs3, ho3⟩ := octetSplits_sound hp3
  rcases hr3 : p3.2 with _ | ⟨c3, r3⟩
  · rw [hr3] at h3; simp at h3
  rw [hr3] at h3
  simp only [] at h3
  by_cases hc3 : c3 = '.'
  swap
  · rw [if_neg hc3] at h3; simp at h3
  rw [if_pos hc3] at h3
  obtain ⟨p4, hp4, h4⟩ := firstSome_some h3
  obtain ⟨hcs4, ho4⟩ := octetSplits_sound hp4
  injection h4 with h4
  subst h4
  constructor
  · refine ⟨p4.2, ?_⟩
    subst hc1; subst hc2; subst hc3
    rw [hcs1, hr1, hcs2, hr2, hcs3, hr3, hcs4]
    simp [List.append_assoc]
  · exact ⟨p1.1, p2.1, p3.1, p4.1, ho1, ho2, ho3, ho4, rfl⟩

theorem findIpMatch_sound {cs m : List Char} (h : findIpMatch cs = some m) :
    (∃ pre suf, cs = pre ++ (m ++ suf)) ∧ ipv4Lang m := by
  induction cs with
  | nil => simp [findIpMatch] at h
  | cons c rest ih =>
    simp only [findIpMatch] at h
    cases hA : ipMatchAt (c :: rest) with
    | some mA =>
      rw [hA] at h
      injection h with h
      subst h
      obtain ⟨⟨r, hr⟩, hl⟩ := ipMatchAt_sound hA
      exact ⟨⟨[], r, by simpa using hr⟩, hl⟩
    | none =>
      rw [hA] at h
      obtain ⟨⟨pre, suf, he⟩, hl⟩ := ih h
      exact ⟨⟨c :: pre, suf, by rw [List.cons_append, ← he]⟩, hl⟩

theorem no_ipv4_sub {cs : List Char} (h : hasIpv4Sub cs = false) :
    ∀ pre mid suf, cs = pre ++ (mid ++ suf) → ¬ ipv4Lang mid := by
  intro pre mid suf heq hlang
  have hc : ipv4Check mid = true := (ipv4Check_iff_lang mid).2 hlang
  have ht : mid ++ suf ∈ cs.tails := by
    rw [List.mem_tails]
    exact ⟨pre, heq.symm⟩
  have hi : mid ∈ (mid ++ suf).inits := by
    rw [List.mem_inits]
    exact ⟨suf, rfl⟩
  have htrue : hasIpv4Sub cs = true := by
    unfold hasIpv4Sub
    rw [List.any_eq_true]
    exact ⟨mid ++ suf, ht, by rw [List.any_eq_true]; exact ⟨mid, hi, hc⟩⟩
  rw [h] at htrue
  cases htrue

theorem findIpMatch_none_of_no_sub {cs : List Char}
    (h : ∀ pre mid suf, cs = pre ++ (mid ++ suf) → ¬ ipv4Lang mid) :
    findIpMatch cs = none := by
  cases hF : findIpMatch cs with
  | none => rfl
  | some m =>
    obtain ⟨⟨pre, suf, he⟩, hl⟩ := findIpMatch_sound hF
    exact absurd hl (h pre m suf he)

/-! ### Helper lemmas: which requests the program issues -/

theorem discover_req_get {r : Request} {tr ipi ica : HttpRes}
    (h : r ∈ (discover tr ipi ica).1) :
    r = .getTrace ∨ r = .getIpify ∨ r = .getIcanhazip := by
  rcases tr with m | m | ⟨st, body⟩
  · rcases ipi with m2 | m2 | ⟨st2, b2⟩ <;> rcases ica with m3 | m3 | ⟨st3, b3⟩ <;>
      simp [discover, fallbackChain] at h <;> tauto
  · simp [discover] at h; tauto
  · simp only [discover] at h
    rcases hf : (rustLines body).find? startsWithIpEq with _ | line <;> rw [hf] at h
    · rcases ipi with m2 | m2 | ⟨st2, b2⟩ <;> rcases ica with m3 | m3 | ⟨st3, b3⟩ <;>
        simp [fallbackChain] at h <;> tauto
    · simp only [] at h
      rcases hm : findIpMatch line.data with _ | mm <;> rw [hm] at h <;>
        simp at h <;> tauto

theorem mem_ipify_discover (tr ipi ica : HttpRes) :
    Request.getIpify ∈ (discover tr ipi ica).1 ↔
      (∃ m, tr = HttpRes.noConn m) ∨
        ∃ st b, tr = HttpRes.ok st b ∧ (rustLines b).find? startsWithIpEq = none := by
  constructor
  · intro h
    rcases tr with m | m | ⟨st, body⟩
    · exact Or.inl ⟨m, rfl⟩
    · simp [discover] at h
    · simp only [discover] at h
      rcases hf : (rustLines body).find? startsWithIpEq with _ | line <;> rw [hf] at h
      · exact Or.inr ⟨st, body, rfl, hf⟩
      · simp only [] at h
        rcases hm : findIpMatch line.data with _ | mm <;> rw [hm] at h <;> simp at h
  · intro h
    rcases h with ⟨m, rfl⟩ | ⟨st, b, rfl, hf⟩
    · rcases ipi with m2 | m2 | ⟨st2, b2⟩ <;> rcases ica with m3 | m3 | ⟨st3, b3⟩ <;>
        simp [discover, fallbackChain]
    · simp only [discover]
      rw [hf]
      rcases ipi with m2 | m2 | ⟨st2, b2⟩ <;> rcases ica with m3 | m3 | ⟨st3, b3⟩ <;>
        simp [fallbackChain]

theorem mem_icanhazip_discover {tr ipi ica : HttpRes}
    (h : Request.getIcanhazip ∈ (discover tr ipi ica).1) : ∃ m, ipi = HttpRes.noConn m := by
  rcases ipi with m2 | m2 | ⟨st2, b2⟩
  · exact ⟨m2, rfl⟩
  all_goals
    rcases tr with m | m | ⟨st, body⟩
  · simp [discover, fallbackChain] at h
  · simp [discover] at h
  · simp only [discover] at h
    rcases hf : (rustLines body).find? startsWithIpEq with _ | line <;> rw [hf] at h
    · simp [fallbackChain] at h
    · simp only [] at h
      rcases hm : findIpMatch line.data with _ | mm <;> rw [hm] at h <;> simp at h
  · simp [discover, fallbackChain] at h
  · simp [discover] at h
  · simp only [discover] at h
    rcases hf : (rustLines body).find? startsWithIpEq with _ | line <;> rw [hf] at h
    · simp [fallbackChain] at h
    · simp only [] at h
      rcases hm : findIpMatch line.data with _ | mm <;> rw [hm] at h <;> simp at h

theorem patchPhase_requests (hdrs : List (String × String)) (zone name : String)
    (ttl : Nat) (proxy : Bool) (ip rid : String) (reqs : List Request)
    (pt : HttpRes) (ptJson : Except String Json) :
    (patchPhase hdrs zone name ttl proxy ip rid reqs pt ptJson).requests =
      reqs ++ [.patch hdrs (patchUrl zone rid) ⟨"A", name, ip, ttl, proxy⟩] := by
  rcases pt with m | m | ⟨st, body⟩
  · rfl
  · rfl
  · rcases ptJson with m | j
    · rfl
    · simp only [patchPhase]
      split <;> rfl

theorem lookupPhase_requests (hdrs : List (String × String)) (zone name : String)
    (ttl : Nat) (proxy : Bool) (ip : String) (reqs : List Request)
    (lk : HttpRes) (lkJson : Except String Json) (pt : HttpRes) (ptJson : Except String Json) :
    (lookupPhase hdrs zone name ttl proxy ip reqs lk lkJson pt ptJson).requests =
        reqs ++ [.lookup hdrs (lookupUrl zone name)] ∨
      ∃ rid, (lookupPhase hdrs zone name ttl proxy ip reqs lk lkJson pt ptJson).requests =
        (reqs ++ [.lookup hdrs (lookupUrl zone name)]) ++
          [.patch hdrs (patchUrl zone rid) ⟨"A", name, ip, ttl, proxy⟩] := by
  rcases lk with m | m | ⟨st, record⟩
  · exact Or.inl rfl
  · exact Or.inl rfl
  · simp only [lookupPhase]
    split
    · exact Or.inl rfl
    · rcases lkJson with m | j
      · exact Or.inl rfl
      · simp only []
        split
        · exact Or.inl rfl
        · rcases hid : (((j.get "result").idx 0).get "id").asStr with _ | rid
          · exact Or.inl rfl
          · exact Or.inr ⟨rid, patchPhase_requests _ _ _ _ _ _ _ _ _ _⟩

theorem lookupPhase_req_mem {r : Request} {hdrs : List (String × String)} {zone name : String}
    {ttl : Nat} {proxy : Bool} {ip : String} {reqs : List Request}
    {lk : HttpRes} {lkJson : Except String Json} {pt : HttpRes} {ptJson : Except String Json}
    (h : r ∈ (lookupPhase hdrs zone name ttl proxy ip reqs lk lkJson pt ptJson).requests) :
    r ∈ reqs ∨ (∃ u, r = .lookup hdrs u) ∨ ∃ u pl, r = .patch hdrs u pl := by
  rcases lookupPhase_requests hdrs zone name ttl proxy ip reqs lk lkJson pt ptJson with
    he | ⟨rid, he⟩ <;> rw [he] at h <;>
    simp only [List.mem_append, List.mem_singleton] at h
  · rcases h with h | h
    · exact Or.inl h
    · exact Or.inr (Or.inl ⟨_, h⟩)
  · rcases h with (h | h) | h
    · exact Or.inl h
    · exact Or.inr (Or.inl ⟨_, h⟩)
    · exact Or.inr (Or.inr ⟨_, _, h⟩)

theorem headerPhase_req_mem {r : Request} {cfg : Config} {ip : String} {reqs : List Request}
    {lk : HttpRes} {lkJson : Except String Json} {pt : HttpRes} {ptJson : Except String Json}
    (h : r ∈ (headerPhase cfg ip reqs lk lkJson pt ptJson).requests) :
    r ∈ reqs ∨ (∃ u, r = .lookup (mkHeaders cfg) u) ∨
      ∃ u pl, r = .patch (mkHeaders cfg) u pl := by
  unfold headerPhase at h
  split at h
  · exact Or.inl h
  · split at h
    · split at h
      · exact Or.inl h
      · exact lookupPhase_req_mem h
    · split at h
      · split at h
        · exact Or.inl h
        · exact lookupPhase_req_mem h
      · exact Or.inl h

theorem run_req_mem {r : Request} {home : String} {cfg : Config} {tr ipi ica lk : HttpRes}
    {lkJson : Except String Json} {pt : HttpRes} {ptJson : Except String Json}
    (h : r ∈ (run ⟨some home, some (some cfg), tr, ipi, ica, lk, lkJson, pt, ptJson⟩).requests) :
    r ∈ (discover tr ipi ica).1 ∨ (∃ u, r = .lookup (mkHeaders cfg) u) ∨
      ∃ u pl, r = .patch (mkHeaders cfg) u pl := by
  unfold run at h
  simp only [] at h
  split at h
  · exact Or.inl h
  · split at h
    · exact Or.inl h
    · exact headerPhase_req_mem h

/-! ### Helper lemmas: stdout/stderr/exit do not depend on the header values -/

theorem patchPhase_out (hdrs1 hdrs2 : List (String × String)) (zone name : String)
    (ttl : Nat) (proxy : Bool) (ip rid : String) (reqs1 reqs2 : List Request)
    (pt : HttpRes) (ptJson : Except String Json) :
    (patchPhase hdrs1 zone name ttl proxy ip rid reqs1 pt ptJson).stdout =
        (patchPhase hdrs2 zone name ttl proxy ip rid reqs2 pt ptJson).stdout ∧
      (patchPhase hdrs1 zone name ttl proxy ip rid reqs1 pt ptJson).stderr =
        (patchPhase hdrs2 zone name ttl proxy ip rid reqs2 pt ptJson).stderr ∧
      (patchPhase hdrs1 zone name ttl proxy ip rid reqs1 pt ptJson).exitCode =
        (patchPhase hdrs2 zone name ttl proxy ip rid reqs2 pt ptJson).exitCode := by
  rcases pt with m | m | ⟨st, body⟩
  · exact ⟨rfl, rfl, rfl⟩
  · exact ⟨rfl, rfl, rfl⟩
  · rcases ptJson with m | j
    · exact ⟨rfl, rfl, rfl⟩
    · by_cases hsucc : (j.get "success").asBool.getD false = true <;>
        simp [patchPhase, hsucc]

theorem lookupPhase_out (hdrs1 hdrs2 : List (String × String)) (zone name : String)
    (ttl : Nat) (proxy : Bool) (ip : String) (reqs1 reqs2 : List Request)
    (lk : HttpRes) (lkJson : Except String Json) (pt : HttpRes) (ptJson : Except String Json) :
    (lookupPhase hdrs1 zone name ttl proxy ip reqs1 lk lkJson pt ptJson).stdout =
        (lookupPhase hdrs2 zone name ttl proxy ip reqs2 lk lkJson pt ptJson).stdout ∧
      (lookupPhase hdrs1 zone name ttl proxy ip reqs1 lk lkJson pt ptJson).stderr =
        (lookupPhase hdrs2 zone name ttl proxy ip reqs2 lk lkJson pt ptJson).stderr ∧
      (lookupPhase hdrs1 zone name ttl proxy ip reqs1 lk lkJson pt ptJson).exitCode =
        (lookupPhase hdrs2 zone name ttl proxy ip reqs2 lk lkJson pt ptJson).exitCode := by
  rcases lk with m | m | ⟨st, record⟩
  · exact ⟨rfl, rfl, rfl⟩
  · exact ⟨rfl, rfl, rfl⟩
  · by_cases hcount : strContains record "\"count\":0" = true
    · simp [lookupPhase, hcount]
    · rcases lkJson with m | j
      · simp [lookupPhase, hcount]
      · by_cases hcontent : (((j.get "result").idx 0).get "content").asStr = some ip
        · simp [lookupPhase, hcount, hcontent]
        · simp only [lookupPhase, if_neg hcount, if_neg hcontent]
          rcases hid : (((j.get "result").idx 0).get "id").asStr with _ | rid
          · exact ⟨rfl, rfl, rfl⟩
          · exact patchPhase_out _ _ _ _ _ _ _ _ _ _ _ _

/-! ### Helper lemmas: reaching the provider stages -/

theorem run_reach_header (home : String) (cfg : Config) (tr ipi ica lk : HttpRes)
    (lkJ : Except String Json) (pt : HttpRes) (ptJ : Except String Json)
    {dreqs : List Request} {ip : String}
    (hdisc : discover tr ipi ica = (dreqs, .ok ip))
    (hvalid : validIPv4 ip = true) :
    run ⟨some home, some (some cfg), tr, ipi, ica, lk, lkJ, pt, ptJ⟩ =
      headerPhase cfg ip dreqs lk lkJ pt ptJ := by
  unfold run
  simp [hdisc, hvalid]

theorem run_discovery_error (home : String) (cfg : Config) (tr ipi ica lk : HttpRes)
    (lkJ : Except String Json) (pt : HttpRes) (ptJ : Except String Json)
    {dreqs : List Request} {m : String}
    (hdisc : discover tr ipi ica = (dreqs, .error m)) :
    run ⟨some home, some (some cfg), tr, ipi, ica, lk, lkJ, pt, ptJ⟩ =
      ⟨[], ["Error: " ++ m], 1, dreqs⟩ := by
  unfold run
  simp [hdisc]

theorem run_invalid_ip (home : String) (cfg : Config) (tr ipi ica lk : HttpRes)
    (lkJ : Except String Json) (pt : HttpRes) (ptJ : Except String Json)
    {dreqs : List Request} {ip : String}
    (hdisc : discover tr ipi ica = (dreqs, .ok ip))
    (hvalid : validIPv4 ip = false) :
    run ⟨some home, some (some cfg), tr, ipi, ica, lk, lkJ, pt, ptJ⟩ =
      ⟨[], ["ddns updater: Failed to find a valid IP."], 2, dreqs⟩ := by
  unfold run
  simp [hdisc, hvalid]

theorem headerPhase_reach_lookup (cfg : Config) (ip : String) (reqs : List Request)
    (lk : HttpRes) (lkJ : Except String Json) (pt : HttpRes) (ptJ : Except String Json)
    (hemail : headerValueOk cfg.auth_email = true)
    (hmeth : cfg.auth_method = "global" ∨ cfg.auth_method = "token")
    (hcred : credHeaderOk cfg = true) :
    headerPhase cfg ip reqs lk lkJ pt ptJ =
      lookupPhase (mkHeaders cfg) cfg.zone_identifier cfg.record_name cfg.ttl cfg.proxy
        ip reqs lk lkJ pt ptJ := by
  have hcred' := hcred
  unfold credHeaderOk at hcred'
  rcases hmeth with hm | hm
  · rw [hm, if_pos rfl] at hcred'
    unfold headerPhase
    simp [hemail, hm, hcred']
  · rw [hm, if_neg (by decide), if_pos rfl] at hcred'
    unfold headerPhase
    simp [hemail, hm, hcred']

theorem lookupPhase_noop (hdrs : List (String × String)) (zone name : String) (ttl : Nat)
    (proxy : Bool) (ip : String) (reqs : List Request) (st : Nat) (record : String) (j : Json)
    (pt : HttpRes) (ptJ : Except String Json)
    (hcount : strContains record "\"count\":0" = false)
    (hcontent : (((j.get "result").idx 0).get "content").asStr = some ip) :
    lookupPhase hdrs zone name ttl proxy ip reqs (.ok st record) (.ok j) pt ptJ =
      ⟨[unchangedMsg ip name], [], 0, reqs ++ [.lookup hdrs (lookupUrl zone name)]⟩ := by
  simp [lookupPhase, hcount, hcontent]

/-! ### The claims -/

/-- C1: for every lookup response whose body does not contain the substring
`"count":0` and whose `result[0].content` equals the discovered IP string, the
program performs no PATCH request, prints
`ddns updater: IP (<ip>) for <record_name> has not changed.` to stdout, and
exits with code 0 — with `ttl` and `proxy` quantified arbitrarily (they are
not reconciled). -/
theorem claim_C1 (home : String) (cfg : Config) (tr ipi ica : HttpRes)
    (st : Nat) (record : String) (j : Json) (pt : HttpRes) (ptJ : Except String Json)
    (ip : String) (dreqs : List Request)
    (hdisc : discover tr ipi ica = (dreqs, .ok ip))
    (hvalid : validIPv4 ip = true)
    (hemail : headerValueOk cfg.auth_email = true)
    (hmeth : cfg.auth_method = "global" ∨ cfg.auth_method = "token")
    (hcred : credHeaderOk cfg = true)
    (hcount : strContains record "\"count\":0" = false)
    (hcontent : (((j.get "result").idx 0).get "content").asStr = some ip) :
    run ⟨some home, some (some cfg), tr, ipi, ica, .ok st record, .ok j, pt, ptJ⟩ =
      ⟨[unchangedMsg ip cfg.record_name], [], 0,
        dreqs ++ [.lookup (mkHeaders cfg) (lookupUrl cfg.zone_identifier cfg.record_name)]⟩ ∧
    ∀ r ∈ (run ⟨some home, some (some cfg), tr, ipi, ica, .ok st record, .ok j, pt,
        ptJ⟩).requests, r.isPatchReq = false := by
  have hrun :
      run ⟨some home, some (some cfg), tr, ipi, ica, .ok st record, .ok j, pt, ptJ⟩ =
        ⟨[unchangedMsg ip cfg.record_name], [], 0,
          dreqs ++ [.lookup (mkHeaders cfg) (lookupUrl cfg.zone_identifier cfg.record_name)]⟩ := by
    rw [run_reach_header home cfg tr ipi ica _ _ pt ptJ hdisc hvalid,
      headerPhase_reach_lookup cfg ip dreqs _ _ pt ptJ hemail hmeth hcred,
      lookupPhase_noop _ _ _ _ _ _ _ _ _ _ _ _ hcount hcontent]
  refine ⟨hrun, ?_⟩
  intro r hr
  rw [hrun] at hr
  simp only [List.mem_append, List.mem_singleton] at hr
  rcases hr with hr | hr
  · have hmem : r ∈ (discover tr ipi ica).1 := by rw [hdisc]; exact hr
    rcases discover_req_get hmem with h | h | h <;> rw [h] <;> rfl
  · rw [hr]; rfl

/-- Witness for C1: a concrete run (token auth, record already `1.2.3.4`)
reaching the no-op branch. -/
theorem claim_C1_witness :
    discover (.ok 200 "ip=1.2.3.4\n") (.noConn "io error") (.noConn "io error") =
        ([.getTrace], .ok "1.2.3.4") ∧
    run ⟨some "/root", some (some cfgToken), .ok 200 "ip=1.2.3.4\n", .noConn "io error",
        .noConn "io error", .ok 200 lkBody1, .ok lkJson1, .noConn "unused", .error "unused"⟩ =
      ⟨[unchangedMsg "1.2.3.4" "home.example.com"], [], 0,
        [.getTrace, .lookup (mkHeaders cfgToken) (lookupUrl "Z1" "home.example.com")]⟩ :=
  ⟨rfl,
    (claim_C1 "/root" cfgToken (.ok 200 "ip=1.2.3.4\n") (.noConn "io error")
      (.noConn "io error") 200 lkBody1 lkJson1 (.noConn "unused") (.error "unused")
      "1.2.3.4" [.getTrace] rfl rfl rfl (Or.inr rfl) rfl rfl rfl).1⟩

theorem headerPhase_requests_extend (cfg : Config) (ip : String) (reqs : List Request)
    (lk : HttpRes) (lkJ : Except String Json) (pt : HttpRes) (ptJ : Except String Json) :
    ∃ tail, (headerPhase cfg ip reqs lk lkJ pt ptJ).requests = reqs ++ tail := by
  unfold headerPhase
  split
  · exact ⟨[], by simp⟩
  split
  · split
    · exact ⟨[], by simp⟩
    · rcases lookupPhase_requests (mkHeaders cfg) cfg.zone_identifier cfg.record_name cfg.ttl
        cfg.proxy ip reqs lk lkJ pt ptJ with he | ⟨rid, he⟩
      · exact ⟨_, he⟩
      · exact ⟨_, by rw [he, List.append_assoc]⟩
  split
  · split
    · exact ⟨[], by simp⟩
    · rcases lookupPhase_requests (mkHeaders cfg) cfg.zone_identifier cfg.record_name cfg.ttl
        cfg.proxy ip reqs lk lkJ pt ptJ with he | ⟨rid, he⟩
      · exact ⟨_, he⟩
      · exact ⟨_, by rw [he, List.append_assoc]⟩
  · exact ⟨[], by simp⟩

theorem run_requests_extend (home : String) (cfg : Config) (tr ipi ica lk : HttpRes)
    (lkJ : Except String Json) (pt : HttpRes) (ptJ : Except String Json) :
    ∃ tail, (run ⟨some home, some (some cfg), tr, ipi, ica, lk, lkJ, pt, ptJ⟩).requests =
      (discover tr ipi ica).1 ++ tail := by
  unfold run
  simp only []
  rcases hd : (discover tr ipi ica).2 with m | ip
  · exact ⟨[], by simp⟩
  · by_cases hv : validIPv4 ip = true
    · simp only [hv, not_true_eq_false, if_false, reduceIte]
      exact headerPhase_requests_extend cfg ip _ lk lkJ pt ptJ
    · simp only [hv, not_false_eq_true, if_true, reduceIte]
      exact ⟨[], by simp⟩

/-- C2: the fallback chain is strictly ordered.  The ipify endpoint is
contacted iff the trace endpoint fails at the transport layer or delivers a
body with no `ip=` line (any HTTP status counts as delivery — `HttpRes.ok`
carries an arbitrary status the program never reads); icanhazip is contacted
only if ipify fails at the transport layer; and when all three fail at the
transport layer the run ends with an error chain on stderr and exit code 1. -/
theorem claim_C2 (home : String) (cfg : Config) (tr ipi ica lk : HttpRes)
    (lkJ : Except String Json) (pt : HttpRes) (ptJ : Except String Json) :
    (Request.getIpify ∈
        (run ⟨some home, some (some cfg), tr, ipi, ica, lk, lkJ, pt, ptJ⟩).requests ↔
      (∃ m, tr = HttpRes.noConn m) ∨
        ∃ st b, tr = HttpRes.ok st b ∧ (rustLines b).find? startsWithIpEq = none) ∧
    (Request.getIcanhazip ∈
        (run ⟨some home, some (some cfg), tr, ipi, ica, lk, lkJ, pt, ptJ⟩).requests →
      ∃ m, ipi = HttpRes.noConn m) ∧
    (∀ m1 m2 m3, tr = .noConn m1 → ipi = .noConn m2 → ica = .noConn m3 →
      run ⟨some home, some (some cfg), tr, ipi, ica, lk, lkJ, pt, ptJ⟩ =
        ⟨[], ["Error: " ++ m3], 1, [.getTrace, .getIpify, .getIcanhazip]⟩) := by
  refine ⟨⟨?_, ?_⟩, ?_, ?_⟩
  · intro hr
    rcases run_req_mem hr with h | ⟨u, h⟩ | ⟨u, pl, h⟩
    · exact (mem_ipify_discover tr ipi ica).1 h
    · cases h
    · cases h
  · intro hrhs
    obtain ⟨tail, htail⟩ := run_requests_extend home cfg tr ipi ica lk lkJ pt ptJ
    rw [htail]
    exact List.mem_append_left _ ((mem_ipify_discover tr ipi ica).2 hrhs)
  · intro hr
    rcases run_req_mem hr with h | ⟨u, h⟩ | ⟨u, pl, h⟩
    · exact mem_icanhazip_discover h
    · cases h
    · cases h
  · intro m1 m2 m3 h1 h2 h3
    rw [h1, h2, h3]
    exact run_discovery_error home cfg _ _ _ lk lkJ pt ptJ rfl

/-- Witness for C2 at the all-transport-failure environment. -/
theorem claim_C2_witness :
    Request.getIcanhazip ∈ (run ⟨some "/root", some (some cfgToken), .noConn "e1",
        .noConn "e2", .noConn "e3", .noConn "x", .error "x", .noConn "x", .error "x"⟩).requests ∧
    (∃ m, (HttpRes.noConn "e2" : HttpRes) = .noConn m) ∧
    run ⟨some "/root", some (some cfgToken), .noConn "e1", .noConn "e2", .noConn "e3",
        .noConn "x", .error "x", .noConn "x", .error "x"⟩ =
      ⟨[], ["Error: e3"], 1, [.getTrace, .getIpify, .getIcanhazip]⟩ :=
  ⟨by decide,
    (claim_C2 "/root" cfgToken (.noConn "e1") (.noConn "e2") (.noConn "e3") (.noConn "x")
      (.error "x") (.noConn "x") (.error "x")).2.1 (by decide),
    (claim_C2 "/root" cfgToken (.noConn "e1") (.noConn "e2") (.noConn "e3") (.noConn "x")
      (.error "x") (.noConn "x") (.error "x")).2.2 "e1" "e2" "e3" rfl rfl rfl⟩

/-- Counterexample to C3 as stated: the validator accepts `01.02.03.04`, but
the spec grammar of §4.3 (`[0-9] | [1-9][0-9] | 1[0-9][0-9] | 2[0-4][0-9] |
25[0-5]`) rejects it, because none of its octet alternatives allows a leading
zero on a multi-digit octet. -/
theorem claim_C3_counterexample :
    validIPv4 "01.02.03.04" = true ∧ specIPv4 "01.02.03.04" = false :=
  ⟨rfl, rfl⟩

/-- C3, amended: the validator accepts exactly the language of the code's
regex octet `[01]?[0-9]?[0-9] | 2[0-4][0-9] | 25[0-5]` (so one- and two-digit
octets may carry leading zeros), four octets joined by dots and anchored at
both ends; and on mismatch the program prints
`ddns updater: Failed to find a valid IP.` to stderr and exits with code 2. -/
theorem claim_C3_amended :
    (∀ s : String, validIPv4 s = true ↔ ipv4Lang s.data) ∧
    (∀ (home : String) (cfg : Config) (tr ipi ica lk : HttpRes) (lkJ : Except String Json)
        (pt : HttpRes) (ptJ : Except String Json) (dreqs : List Request) (ip : String),
      discover tr ipi ica = (dreqs, .ok ip) → validIPv4 ip = false →
      run ⟨some home, some (some cfg), tr, ipi, ica, lk, lkJ, pt, ptJ⟩ =
        ⟨[], ["ddns updater: Failed to find a valid IP."], 2, dreqs⟩) :=
  ⟨fun s => ipv4Check_iff_lang s.data,
    fun home cfg tr ipi ica lk lkJ pt ptJ dreqs ip hd hv =>
      run_invalid_ip home cfg tr ipi ica lk lkJ pt ptJ hd hv⟩

/-- Witness for the amended C3: the validator at `01.2.3.4`, and a concrete
run in which discovery yields `not-an-ip` and the program exits 2. -/
theorem claim_C3_witness :
    (validIPv4 "01.2.3.4" = true ↔ ipv4Lang "01.2.3.4".data) ∧
    discover (.noConn "e1") (.ok 200 "not-an-ip\n") (.noConn "e3") =
        ([.getTrace, .getIpify], .ok "not-an-ip") ∧
    run ⟨some "/root", some (some cfgToken), .noConn "e1", .ok 200 "not-an-ip\n",
        .noConn "e3", .noConn "x", .error "x", .noConn "x", .error "x"⟩ =
      ⟨[], ["ddns updater: Failed to find a valid IP."], 2, [.getTrace, .getIpify]⟩ :=
  ⟨claim_C3_amended.1 "01.2.3.4", rfl,
    claim_C3_amended.2 "/root" cfgToken (.noConn "e1") (.ok 200 "not-an-ip\n") (.noConn "e3")
      (.noConn "x") (.error "x") (.noConn "x") (.error "x") [.getTrace, .getIpify]
      "not-an-ip" rfl rfl⟩

/-- Counterexample to C4 as stated: with `auth_method = "basic"` and a working
trace endpoint, the program exits 1 with the diagnostic, but it has already
issued the discovery request to the trace endpoint — so the claim's "no
discovery request" is false. -/
theorem claim_C4_counterexample :
    (run ⟨some "/root", some (some cfgBasic), .ok 200 "ip=1.2.3.4\n", .noConn "e2",
        .noConn "e3", .noConn "x", .error "x", .noConn "x", .error "x"⟩).exitCode = 1 ∧
    Request.getTrace ∈ (run ⟨some "/root", some (some cfgBasic), .ok 200 "ip=1.2.3.4\n",
        .noConn "e2", .noConn "e3", .noConn "x", .error "x", .noConn "x",
        .error "x"⟩).requests :=
  ⟨rfl, by decide⟩

/-- C4, amended: a configuration whose `auth_method` is neither `global` nor
`token` makes the program print the expected/found diagnostic to stdout and
exit 1 before any provider request — but only after discovery and validation
have run, so the discovery requests have already been issued.  The outcome's
request list is exactly the discovery requests, none of which is a provider
request. -/
theorem claim_C4_amended (home : String) (cfg : Config) (tr ipi ica lk : HttpRes)
    (lkJ : Except String Json) (pt : HttpRes) (ptJ : Except String Json)
    (dreqs : List Request) (ip : String)
    (hdisc : discover tr ipi ica = (dreqs, .ok ip))
    (hvalid : validIPv4 ip = true)
    (hemail : headerValueOk cfg.auth_email = true)
    (hg : cfg.auth_method ≠ "global") (ht : cfg.auth_method ≠ "token") :
    run ⟨some home, some (some cfg), tr, ipi, ica, lk, lkJ, pt, ptJ⟩ =
      ⟨[authDiag1, authDiag2 cfg.auth_method], [], 1, dreqs⟩ ∧
    ∀ r ∈ dreqs, r.isProviderReq = false := by
  constructor
  · rw [run_reach_header home cfg tr ipi ica lk lkJ pt ptJ hdisc hvalid]
    simp [headerPhase, hemail, hg, ht]
  · intro r hr
    have hmem : r ∈ (discover tr ipi ica).1 := by rw [hdisc]; exact hr
    rcases discover_req_get hmem with h | h | h <;> rw [h] <;> rfl

/-- Witness for the amended C4 at the concrete `auth_method = "basic"` run. -/
theorem claim_C4_witness :
    run ⟨some "/root", some (some cfgBasic), .ok 200 "ip=1.2.3.4\n", .noConn "e2",
        .noConn "e3", .noConn "x", .error "x", .noConn "x", .error "x"⟩ =
      ⟨[authDiag1, authDiag2 "basic"], [], 1, [.getTrace]⟩ ∧
    ∀ r ∈ ([.getTrace] : List Request), r.isProviderReq = false :=
  claim_C4_amended "/root" cfgBasic (.ok 200 "ip=1.2.3.4\n") (.noConn "e2") (.noConn "e3")
    (.noConn "x") (.error "x") (.noConn "x") (.error "x") [.getTrace] "1.2.3.4"
    rfl rfl rfl (by decide) (by decide)

theorem lookupPhase_reach_patch (hdrs : List (String × String)) (zone name : String)
    (ttl : Nat) (proxy : Bool) (ip : String) (reqs : List Request) (st : Nat)
    (record : String) (j : Json) (pt : HttpRes) (ptJ : Except String Json) (rid : String)
    (hcount : strContains record "\"count\":0" = false)
    (hcontent : (((j.get "result").idx 0).get "content").asStr ≠ some ip)
    (hid : (((j.get "result").idx 0).get "id").asStr = some rid) :
    lookupPhase hdrs zone name ttl proxy ip reqs (.ok st record) (.ok j) pt ptJ =
      patchPhase hdrs zone name ttl proxy ip rid
        (reqs ++ [.lookup hdrs (lookupUrl zone name)]) pt ptJ := by
  simp [lookupPhase, hcount, hcontent, hid]

theorem json_getD_true_iff (j : Json) : j.asBool.getD false = true ↔ j = .bool true := by
  cases j <;> simp [Json.asBool]

/-- C5: whenever the run reaches the PATCH stage and the PATCH response body
parses as JSON `jp`, then: if the top-level `success` field is the boolean
`true` the program prints `DNS updated.` to stdout and exits 0; if `success`
is false, absent, or not a boolean, the program prints the rendered JSON body
to stderr prefixed by `Error: HTTP response:` and still exits 0. -/
theorem claim_C5 (home : String) (cfg : Config) (tr ipi ica : HttpRes)
    (st : Nat) (record : String) (j : Json) (st2 : Nat) (pbody : String) (jp : Json)
    (ip rid : String) (dreqs : List Request)
    (hdisc : discover tr ipi ica = (dreqs, .ok ip))
    (hvalid : validIPv4 ip = true)
    (hemail : headerValueOk cfg.auth_email = true)
    (hmeth : cfg.auth_method = "global" ∨ cfg.auth_method = "token")
    (hcred : credHeaderOk cfg = true)
    (hcount : strContains record "\"count\":0" = false)
    (hcontent : (((j.get "result").idx 0).get "content").asStr ≠ some ip)
    (hid : (((j.get "result").idx 0).get "id").asStr = some rid) :
    (jp.get "success" = Json.bool true →
      run ⟨some home, some (some cfg), tr, ipi, ica, .ok st record, .ok j,
          .ok st2 pbody, .ok jp⟩ =
        ⟨["DNS updated."], [], 0,
          (dreqs ++ [.lookup (mkHeaders cfg) (lookupUrl cfg.zone_identifier cfg.record_name)]) ++
            [.patch (mkHeaders cfg) (patchUrl cfg.zone_identifier rid)
              ⟨"A", cfg.record_name, ip, cfg.ttl, cfg.proxy⟩]⟩) ∧
    (jp.get "success" ≠ Json.bool true →
      run ⟨some home, some (some cfg), tr, ipi, ica, .ok st record, .ok j,
          .ok st2 pbody, .ok jp⟩ =
        ⟨[], ["Error: HTTP response: \n" ++ renderJson jp], 0,
          (dreqs ++ [.lookup (mkHeaders cfg) (lookupUrl cfg.zone_identifier cfg.record_name)]) ++
            [.patch (mkHeaders cfg) (patchUrl cfg.zone_identifier rid)
              ⟨"A", cfg.record_name, ip, cfg.ttl, cfg.proxy⟩]⟩) := by
  have hreach :
      run ⟨some home, some (some cfg), tr, ipi, ica, .ok st record, .ok j,
          .ok st2 pbody, .ok jp⟩ =
        patchPhase (mkHeaders cfg) cfg.zone_identifier cfg.record_name cfg.ttl cfg.proxy ip rid
          (dreqs ++ [.lookup (mkHeaders cfg) (lookupUrl cfg.zone_identifier cfg.record_name)])
          (.ok st2 pbody) (.ok jp) := by
    rw [run_reach_header home cfg tr ipi ica _ _ _ _ hdisc hvalid,
      headerPhase_reach_lookup cfg ip dreqs _ _ _ _ hemail hmeth hcred,
      lookupPhase_reach_patch _ _ _ _ _ _ _ _ _ _ _ _ _ hcount hcontent hid]
  constructor
  · intro hsucc
    rw [hreach]
    have hb : (jp.get "success").asBool.getD false = true := by
      rw [hsucc]
      rfl
    simp [patchPhase, hb]
  · intro hne
    rw [hreach]
    have hb : (jp.get "success").asBool.getD false = false := by
      cases hgb : (jp.get "success").asBool.getD false
      · rfl
      · exact absurd ((json_getD_true_iff (jp.get "success")).1 hgb) hne
    simp [patchPhase, hb]

/-- Witness for C5: a concrete run whose PATCH response is
`{"success":false, "errors":["denied"]}`; the body is rendered on stderr and
the exit code is 0. -/
theorem claim_C5_witness :
    (ptJsonFalse.get "success" ≠ Json.bool true) ∧
    run ⟨some "/root", some (some cfgToken), .ok 200 "ip=1.2.3.5\n", .noConn "e2",
        .noConn "e3", .ok 200 lkBody1, .ok lkJson1, .ok 200 "unparsed", .ok ptJsonFalse⟩ =
      ⟨[], ["Error: HTTP response: \n" ++ renderJson ptJsonFalse], 0,
        ([.getTrace, .lookup (mkHeaders cfgToken) (lookupUrl "Z1" "home.example.com")]) ++
          [.patch (mkHeaders cfgToken) (patchUrl "Z1" "R1")
            ⟨"A", "home.example.com", "1.2.3.5", 120, false⟩]⟩ :=
  ⟨fun h => Bool.noConfusion (Json.bool.inj h),
    (claim_C5 "/root" cfgToken (.ok 200 "ip=1.2.3.5\n") (.noConn "e2") (.noConn "e3")
      200 lkBody1 lkJson1 200 "unparsed" ptJsonFalse "1.2.3.5" "R1" [.getTrace]
      rfl rfl rfl (Or.inr rfl) rfl rfl
      (fun h => Option.noConfusion h (fun h2 => by simp at h2)) rfl).2
      (fun h => Bool.noConfusion (Json.bool.inj h))⟩

/-- Counterexample to C6 as stated: a lookup body without `"count":0`, whose
`result[0].id` is absent, but whose `result[0].content` equals the discovered
IP.  The claim predicts ProviderResponseInvalid (stderr, exit 1); the program
instead takes the no-op branch first and exits 0 with the unchanged message,
because the id is only read after the content comparison. -/
theorem claim_C6_counterexample :
    strContains lkBodyNoId "\"count\":0" = false ∧
    (((lkJsonNoId.get "result").idx 0).get "id").asStr = none ∧
    (run ⟨some "/root", some (some cfgToken), .ok 200 "ip=1.2.3.4\n", .noConn "e2",
        .noConn "e3", .ok 200 lkBodyNoId, .ok lkJsonNoId, .noConn "x", .error "x"⟩).exitCode
      = 0 ∧
    (run ⟨some "/root", some (some cfgToken), .ok 200 "ip=1.2.3.4\n", .noConn "e2",
        .noConn "e3", .ok 200 lkBodyNoId, .ok lkJsonNoId, .noConn "x", .error "x"⟩).stdout
      = [unchangedMsg "1.2.3.4" "home.example.com"] :=
  ⟨rfl, rfl, rfl, rfl⟩

/-- C6, amended: if additionally `result[0].content` (read as a string) does
not equal the discovered IP — so the no-op branch is not taken — then a
missing or non-string `result[0].id` makes the run fail with the
could-not-extract error on stderr, exit code 1, and no PATCH request. -/
theorem claim_C6_amended (home : String) (cfg : Config) (tr ipi ica : HttpRes)
    (st : Nat) (record : String) (j : Json) (pt : HttpRes) (ptJ : Except String Json)
    (ip : String) (dreqs : List Request)
    (hdisc : discover tr ipi ica = (dreqs, .ok ip))
    (hvalid : validIPv4 ip = true)
    (hemail : headerValueOk cfg.auth_email = true)
    (hmeth : cfg.auth_method = "global" ∨ cfg.auth_method = "token")
    (hcred : credHeaderOk cfg = true)
    (hcount : strContains record "\"count\":0" = false)
    (hcontent : (((j.get "result").idx 0).get "content").asStr ≠ some ip)
    (hid : (((j.get "result").idx 0).get "id").asStr = none) :
    run ⟨some home, some (some cfg), tr, ipi, ica, .ok st record, .ok j, pt, ptJ⟩ =
      ⟨[], ["Error: Error: could not extract content from JSON response"], 1,
        dreqs ++ [.lookup (mkHeaders cfg) (lookupUrl cfg.zone_identifier cfg.record_name)]⟩ ∧
    ∀ r ∈ (run ⟨some home, some (some cfg), tr, ipi, ica, .ok st record, .ok j, pt,
        ptJ⟩).requests, r.isPatchReq = false := by
  have hrun :
      run ⟨some home, some (some cfg), tr, ipi, ica, .ok st record, .ok j, pt, ptJ⟩ =
        ⟨[], ["Error: Error: could not extract content from JSON response"], 1,
          dreqs ++ [.lookup (mkHeaders cfg) (lookupUrl cfg.zone_identifier cfg.record_name)]⟩ := by
    rw [run_reach_header home cfg tr ipi ica _ _ pt ptJ hdisc hvalid,
      headerPhase_reach_lookup cfg ip dreqs _ _ pt ptJ hemail hmeth hcred]
    simp [lookupPhase, hcount, hcontent, hid]
  refine ⟨hrun, ?_⟩
  intro r hr
  rw [hrun] at hr
  simp only [List.mem_append, List.mem_singleton] at hr
  rcases hr with hr | hr
  · have hmem : r ∈ (discover tr ipi ica).1 := by rw [hdisc]; exact hr
    rcases discover_req_get hmem with h | h | h <;> rw [h] <;> rfl
  · rw [hr]; rfl

/-- Witness for the amended C6: same environment as the counterexample but
with a discovered IP that differs from the record content. -/
theorem claim_C6_witness :
    run ⟨some "/root", some (some cfgToken), .ok 200 "ip=9.9.9.9\n", .noConn "e2",
        .noConn "e3", .ok 200 lkBodyNoId, .ok lkJsonNoId, .noConn "x", .error "x"⟩ =
      ⟨[], ["Error: Error: could not extract content from JSON response"], 1,
        [.getTrace] ++ [.lookup (mkHeaders cfgToken) (lookupUrl "Z1" "home.example.com")]⟩ ∧
    ∀ r ∈ (run ⟨some "/root", some (some cfgToken), .ok 200 "ip=9.9.9.9\n", .noConn "e2",
        .noConn "e3", .ok 200 lkBodyNoId, .ok lkJsonNoId, .noConn "x",
        .error "x"⟩).requests, r.isPatchReq = false :=
  claim_C6_amended "/root" cfgToken (.ok 200 "ip=9.9.9.9\n") (.noConn "e2") (.noConn "e3")
    200 lkBodyNoId lkJsonNoId (.noConn "x") (.error "x") "9.9.9.9" [.getTrace]
    rfl rfl rfl (Or.inr rfl) rfl rfl (by decide) rfl

/-- Counterexample to C7 as stated: with `HOME` unset the program panics; the
error text reaches stderr but the process exit code is the Rust panic code
101, not 1 as the claim asserts. -/
theorem claim_C7_counterexample :
    (run ⟨none, none, .noConn "x", .noConn "x", .noConn "x", .noConn "x", .error "x",
        .noConn "x", .error "x"⟩).stderr =
      ["called `Result::unwrap()` on an `Err` value: NotPresent"] ∧
    (run ⟨none, none, .noConn "x", .noConn "x", .noConn "x", .noConn "x", .error "x",
        .noConn "x", .error "x"⟩).exitCode = 101 ∧
    (run ⟨none, none, .noConn "x", .noConn "x", .noConn "x", .noConn "x", .error "x",
        .noConn "x", .error "x"⟩).exitCode ≠ 1 :=
  ⟨rfl, rfl, by decide⟩

/-- C7, amended: every configuration-loading failure — `HOME` unset, config
file unreadable, or config not deserialisable — makes the program print the
error to stderr (including the config path for the file-related failures) and
terminate by panic, whose process exit code is 101, before any network
request. -/
theorem claim_C7_amended (home : String) (cr : Option (Option Config))
    (tr ipi ica lk : HttpRes) (lkJ : Except String Json) (pt : HttpRes)
    (ptJ : Except String Json) :
    (run ⟨none, cr, tr, ipi, ica, lk, lkJ, pt, ptJ⟩ =
      ⟨[], ["called `Result::unwrap()` on an `Err` value: NotPresent"], 101, []⟩) ∧
    (run ⟨some home, none, tr, ipi, ica, lk, lkJ, pt, ptJ⟩ =
      ⟨[], ["Could not read the config file.\nconfig: " ++ home ++ "/.config/ddns/config.json"],
        101, []⟩) ∧
    (run ⟨some home, some none, tr, ipi, ica, lk, lkJ, pt, ptJ⟩ =
      ⟨[], ["Invalid config file.\nconfig: " ++ home ++ "/.config/ddns/config.json"],
        101, []⟩) :=
  ⟨rfl, rfl, rfl⟩

/-- C8: every provider request (lookup and patch) carries `X-Auth-Email` and
`Content-Type: application/json`, plus exactly the credential selected by
`auth_method`: `X-Auth-Key` and no `Authorization` for `global`,
`Authorization: Bearer <key>` and no `X-Auth-Key` for `token`. -/
theorem claim_C8 (home : String) (cfg : Config) (tr ipi ica lk : HttpRes)
    (lkJ : Except String Json) (pt : HttpRes) (ptJ : Except String Json)
    (hdrs : List (String × String)) (u : String)
    (h : Request.lookup hdrs u ∈
        (run ⟨some home, some (some cfg), tr, ipi, ica, lk, lkJ, pt, ptJ⟩).requests ∨
      ∃ pl, Request.patch hdrs u pl ∈
        (run ⟨some home, some (some cfg), tr, ipi, ica, lk, lkJ, pt, ptJ⟩).requests) :
    (("X-Auth-Email", cfg.auth_email) ∈ hdrs ∧
      ("Content-Type", "application/json") ∈ hdrs) ∧
    (cfg.auth_method = "global" →
      ("X-Auth-Key", cfg.auth_key) ∈ hdrs ∧ ∀ v, ("Authorization", v) ∉ hdrs) ∧
    (cfg.auth_method = "token" →
      ("Authorization", "Bearer " ++ cfg.auth_key) ∈ hdrs ∧
        ∀ v, ("X-Auth-Key", v) ∉ hdrs) := by
  have hhs : hdrs = mkHeaders cfg := by
    rcases h with h | ⟨pl, h⟩
    · rcases run_req_mem h with hm | ⟨u2, he⟩ | ⟨u2, pl2, he⟩
      · rcases discover_req_get hm with h2 | h2 | h2 <;> cases h2
      · injection he with h1 h2
      · cases he
    · rcases run_req_mem h with hm | ⟨u2, he⟩ | ⟨u2, pl2, he⟩
      · rcases discover_req_get hm with h2 | h2 | h2 <;> cases h2
      · cases he
      · injection he with h1 h2
  subst hhs
  refine ⟨⟨?_, ?_⟩, ?_, ?_⟩
  · simp [mkHeaders]
  · simp [mkHeaders]
  · intro hg
    constructor
    · simp [mkHeaders, hg]
    · intro v hv
      simp [mkHeaders, hg] at hv
  · intro htk
    constructor
    · simp [mkHeaders, htk]
    · intro v hv
      simp [mkHeaders, htk] at hv

/-- Witness for C8: the lookup request of a concrete token-auth run. -/
theorem claim_C8_witness :
    (("X-Auth-Email", "user@example.com") ∈ mkHeaders cfgToken ∧
      ("Content-Type", "application/json") ∈ mkHeaders cfgToken) ∧
    ("token" = "global" →
      ("X-Auth-Key", "SECRETKEY") ∈ mkHeaders cfgToken ∧
        ∀ v, ("Authorization", v) ∉ mkHeaders cfgToken) ∧
    ("token" = "token" →
      ("Authorization", "Bearer SECRETKEY") ∈ mkHeaders cfgToken ∧
        ∀ v, ("X-Auth-Key", v) ∉ mkHeaders cfgToken) :=
  claim_C8 "/root" cfgToken (.ok 200 "ip=1.2.3.4\n") (.noConn "e2") (.noConn "e3")
    (.ok 200 lkBody1) (.ok lkJson1) (.noConn "x") (.error "x") (mkHeaders cfgToken)
    (lookupUrl "Z1" "home.example.com") (Or.inl (by decide))

/-- Counterexample to C9 as stated: with `auth_method = auth_key = "basic"`,
the bad-method diagnostic printed to stdout echoes `auth_method`, and hence
contains the `auth_key` value verbatim — so "the value of auth_key never
appears in any message" fails for configurations whose other (echoed) fields
contain the key. -/
theorem claim_C9_counterexample :
    (run ⟨some "/root", some (some cfgBasic), .ok 200 "ip=1.2.3.4\n", .noConn "e2",
        .noConn "e3", .noConn "x", .error "x", .noConn "x", .error "x"⟩).stdout.any
      (fun msg => strContains msg cfgBasic.auth_key) = true := by
  decide

/-- C9, amended: stdout, stderr, and the exit code are independent of
`auth_key`: two runs over the same environment whose configurations differ
only in `auth_key` (both keys encodable as header values) produce identical
stdout, identical stderr, and the same exit code.  The key therefore reaches
an output stream only when it already occurs in another echoed input, as in
the counterexample. -/
theorem claim_C9_amended (home em me k1 k2 zo na : String) (tt : Nat) (px : Bool)
    (tr ipi ica lk : HttpRes) (lkJ : Except String Json) (pt : HttpRes)
    (ptJ : Except String Json)
    (h1 : credHeaderOk ⟨em, me, k1, zo, na, tt, px⟩ = true)
    (h2 : credHeaderOk ⟨em, me, k2, zo, na, tt, px⟩ = true) :
    (run ⟨some home, some (some ⟨em, me, k1, zo, na, tt, px⟩), tr, ipi, ica, lk, lkJ,
        pt, ptJ⟩).stdout =
      (run ⟨some home, some (some ⟨em, me, k2, zo, na, tt, px⟩), tr, ipi, ica, lk, lkJ,
        pt, ptJ⟩).stdout ∧
    (run ⟨some home, some (some ⟨em, me, k1, zo, na, tt, px⟩), tr, ipi, ica, lk, lkJ,
        pt, ptJ⟩).stderr =
      (run ⟨some home, some (some ⟨em, me, k2, zo, na, tt, px⟩), tr, ipi, ica, lk, lkJ,
        pt, ptJ⟩).stderr ∧
    (run ⟨some home, some (some ⟨em, me, k1, zo, na, tt, px⟩), tr, ipi, ica, lk, lkJ,
        pt, ptJ⟩).exitCode =
      (run ⟨some home, some (some ⟨em, me, k2, zo, na, tt, px⟩), tr, ipi, ica, lk, lkJ,
        pt, ptJ⟩).exitCode := by
  rcases hd : (discover tr ipi ica).2 with m | ip
  · have hpair : discover tr ipi ica = ((discover tr ipi ica).1, .error m) := by rw [← hd]
    rw [run_discovery_error home _ tr ipi ica lk lkJ pt ptJ hpair,
      run_discovery_error home _ tr ipi ica lk lkJ pt ptJ hpair]
    exact ⟨rfl, rfl, rfl⟩
  · have hpair : discover tr ipi ica = ((discover tr ipi ica).1, .ok ip) := by rw [← hd]
    by_cases hv : validIPv4 ip = true
    · rw [run_reach_header home _ tr ipi ica lk lkJ pt ptJ hpair hv,
        run_reach_header home _ tr ipi ica lk lkJ pt ptJ hpair hv]
      unfold headerPhase
      by_cases hem : headerValueOk em = true
      · by_cases hgl : me = "global"
        · subst hgl
          simp [credHeaderOk] at h1 h2
          simp [hem, h1, h2]
          exact lookupPhase_out _ _ _ _ _ _ _ _ _ _ _ _ _
        · by_cases htk : me = "token"
          · subst htk
            simp [credHeaderOk] at h1 h2
            simp [hem, h1, h2]
            exact lookupPhase_out _ _ _ _ _ _ _ _ _ _ _ _ _
          · simp [hem, hgl, htk]
      · simp [hem]
    · have hvf : validIPv4 ip = false := by
        cases hvb : validIPv4 ip
        · rfl
        · exact absurd hvb hv
      rw [run_invalid_ip home _ tr ipi ica lk lkJ pt ptJ hpair hvf,
        run_invalid_ip home _ tr ipi ica lk lkJ pt ptJ hpair hvf]
      exact ⟨rfl, rfl, rfl⟩

/-- Witness for the amended C9: two concrete token-auth runs differing only
in the key produce identical outputs. -/
theorem claim_C9_witness :
    credHeaderOk ⟨"a@b.c", "token", "KEYONE", "Z", "n.example", 1, false⟩ = true ∧
    (run ⟨some "/r", some (some ⟨"a@b.c", "token", "KEYONE", "Z", "n.example", 1, false⟩),
        .ok 200 "ip=1.2.3.4\n", .noConn "e2", .noConn "e3", .ok 200 lkBody1, .ok lkJson1,
        .noConn "x", .error "x"⟩).stdout =
      (run ⟨some "/r", some (some ⟨"a@b.c", "token", "KEYTWO", "Z", "n.example", 1, false⟩),
        .ok 200 "ip=1.2.3.4\n", .noConn "e2", .noConn "e3", .ok 200 lkBody1, .ok lkJson1,
        .noConn "x", .error "x"⟩).stdout :=
  ⟨rfl,
    (claim_C9_amended "/r" "a@b.c" "token" "KEYONE" "KEYTWO" "Z" "n.example" 1 false
      (.ok 200 "ip=1.2.3.4\n") (.noConn "e2") (.noConn "e3") (.ok 200 lkBody1) (.ok lkJson1)
      (.noConn "x") (.error "x") rfl rfl).1⟩

/-- C10: if the trace endpoint delivers a body whose first `ip=` line has no
substring in the `IPV4_REGEX` language, the run aborts with
`failed to extract IP from Cloudflare response` (stderr error chain, exit 1)
and never contacts ipify or icanhazip. -/
theorem claim_C10 (home : String) (cfg : Config) (ipi ica lk : HttpRes)
    (lkJ : Except String Json) (pt : HttpRes) (ptJ : Except String Json)
    (st : Nat) (body : String) (line : String)
    (hline : (rustLines body).find? startsWithIpEq = some line)
    (hno : ∀ pre mid suf, line.data = pre ++ (mid ++ suf) → ¬ ipv4Lang mid) :
    run ⟨some home, some (some cfg), .ok st body, ipi, ica, lk, lkJ, pt, ptJ⟩ =
      ⟨[], ["Error: failed to extract IP from Cloudflare response"], 1, [.getTrace]⟩ ∧
    Request.getIpify ∉
      (run ⟨some home, some (some cfg), .ok st body, ipi, ica, lk, lkJ, pt,
        ptJ⟩).requests ∧
    Request.getIcanhazip ∉
      (run ⟨some home, some (some cfg), .ok st body, ipi, ica, lk, lkJ, pt,
        ptJ⟩).requests := by
  have hF : findIpMatch line.data = none := findIpMatch_none_of_no_sub hno
  have hdisc : discover (.ok st body) ipi ica =
      ([.getTrace], .error "failed to extract IP from Cloudflare response") := by
    simp [discover, hline, hF]
  have hrun := run_discovery_error home cfg (.ok st body) ipi ica lk lkJ pt ptJ hdisc
  refine ⟨hrun, ?_, ?_⟩ <;> rw [hrun] <;> simp

/-- Witness for C10: the body `ip=abc\n` has an `ip=` line with no IPv4 match
anywhere in it; the run aborts after the single trace request. -/
theorem claim_C10_witness :
    (rustLines "ip=abc\n").find? startsWithIpEq = some "ip=abc" ∧
    run ⟨some "/root", some (some cfgToken), .ok 200 "ip=abc\n", .noConn "e2", .noConn "e3",
        .noConn "x", .error "x", .noConn "x", .error "x"⟩ =
      ⟨[], ["Error: failed to extract IP from Cloudflare response"], 1, [.getTrace]⟩ :=
  ⟨rfl,
    (claim_C10 "/root" cfgToken (.noConn "e2") (.noConn "e3") (.noConn "x") (.error "x")
      (.noConn "x") (.error "x") 200 "ip=abc\n" "ip=abc" rfl
      (no_ipv4_sub (by decide))).1⟩
